import Mathlib

/-!
Verification of the Quipubase core engine (collections, record models,
object router, pub/sub surface) against its natural-language specification.

The definitions below are a shallow embedding of the Python source:

* `src/quipubase/api/collections/typedefs.py` — `JsonSchemaModel`
  (`_process_type`, `create_class`), `Collection` (`retrieve`, `create`,
  `delete`, `find`, `update`, `col_id`), `SubResponse`, `PubResponse`,
  `QuipubaseRequest`;
* `src/quipubase/api/collections/service.py` — `CollectionManager`
  (`create_collection`, `delete_collection`);
* `src/quipubase/api/collections/objects/router.py` — the POST
  `/objects/collection_id` handler;
* `src/quipubase/api/collections/objects/service.py` — `PubSub.pub`;
* `src/quipubase/lib/utils.py` — `exception_handler` (the `handle`
  decorator).

Machine-level details that cannot influence the claims (RocksDB tuning
options, logging, the sha256 hex digest, actual network transport) are
noted where they are abstracted.
-/

namespace Quipubase

/-- JSON scalar values as produced by `orjson.loads` for the record
payloads the collection layer manipulates.  Records in this code base are
flat objects of scalars (nested values never reach any branch the claims
depend on), so the value type is kept first-order. -/
inductive JVal where
  | null
  | bool (b : Bool)
  | str (s : String)
  | int (n : Int)
deriving DecidableEq, Repr

/-- A parsed JSON object: an ordered association list, as `dict` preserves
insertion order in Python. -/
abbrev JsonObj := List (String × JVal)

/-- Scalar field types of a compiled record model (`MAPPING` in
`typedefs.py`). -/
inductive SType where
  | string
  | integer
  | number
  | boolean
deriving DecidableEq, Repr

/-- One declared field of a compiled record model: produced by
`JsonSchemaModel.create_class`, which marks a field required exactly when
it occurs in the schema's `required` list.  The `id` field injected by the
`Collection` base class appears as `⟨"id", .string, false⟩`. -/
structure FieldSig where
  name : String
  type : SType
  required : Bool
deriving DecidableEq, Repr

/-- The compiled model: its declared fields in definition order (the
`Collection` base field `id` first, then the schema properties). -/
abbrev Sig := List FieldSig

/-- Does a scalar value satisfy a declared type? (pydantic strict-enough
check on the scalar types this layer uses; `number` accepts ints the way
`float` coerces them). -/
def okVal : SType → JVal → Bool
  | .string, .str _ => true
  | .integer, .int _ => true
  | .number, .int _ => true
  | .boolean, .bool _ => true
  | _, _ => false

/-- Is `k` one of the declared field names of the model? -/
def declared (sig : Sig) (k : String) : Bool :=
  sig.any (fun f => f.name == k)

/-- pydantic validation of one declared field against the payload:
a missing or explicitly-null value is accepted only for optional fields
(`tp.Optional[field_type]` with default `None` in `create_class`); a
present non-null value must match the declared type. -/
def fieldOk (p : JsonObj) (f : FieldSig) : Bool :=
  match p.lookup f.name with
  | none => !f.required
  | some .null => !f.required
  | some v => okVal f.type v

/-- A validated record instance: the declared fields (always all present
after validation, optional ones possibly null) and the extra fields kept
because `Collection.model_config` sets `extra: "allow"`. -/
structure RecordVal where
  decl : List (String × JVal)
  extras : List (String × JVal)
deriving DecidableEq, Repr

/-- Value given to a declared field during validation: the payload value
when present; otherwise the field default — `None` for every generated
optional field, except `id` whose `default_factory` draws a fresh UUID
(modelled by the `fresh` parameter). -/
def deserField (fresh : String) (p : JsonObj) (f : FieldSig) : JVal :=
  match p.lookup f.name with
  | some v => v
  | none => if f.name == "id" then .str fresh else .null

/-- `cls.model_validate(payload)` for a compiled model: every declared
field is checked by `fieldOk`; unknown top-level fields are retained as
extras (`extra: "allow"`); failure returns `none` (pydantic
`ValidationError`). -/
def deserialize (sig : Sig) (fresh : String) (p : JsonObj) : Option RecordVal :=
  if sig.all (fieldOk p) then
    some { decl := sig.map (fun f => (f.name, deserField fresh p f)),
           extras := p.filter (fun kv => !(declared sig kv.1)) }
  else none

/-- `record.model_dump()` — the full field map, null values included,
declared fields first then extras (pydantic emission order). -/
def modelDump (r : RecordVal) : JsonObj :=
  r.decl ++ r.extras

/-- `record.model_dump_json(exclude_none=True)` as the parsed object it
renders: all null-valued members (declared and extra alike) are dropped.
Byte equality of the stored JSON text is equivalent to equality of this
ordered object. -/
def serialize (r : RecordVal) : JsonObj :=
  (r.decl ++ r.extras).filter (fun kv => kv.2 != JVal.null)

/-- The `id` field value of a record. -/
def recId (r : RecordVal) : JVal :=
  ((r.decl.lookup "id").getD JVal.null)

/-- `Collection.create`'s guard: `if self.id is None: self.id = str(uuid4())`. -/
def setField : List (String × JVal) → String → JVal → List (String × JVal)
  | [], _, _ => []
  | (k, v) :: rest, key, nv =>
    if k == key then (key, nv) :: rest else (k, v) :: setField rest key nv

def withId (fresh : String) (r : RecordVal) : RecordVal :=
  if recId r = JVal.null then { r with decl := setField r.decl "id" (.str fresh) } else r

def idString (r : RecordVal) : String :=
  match recId r with
  | .str s => s
  | _ => ""

/-- RocksDB's byte comparator, on the code-point sequences of the keys
(UTF-8 byte order and code-point order agree). -/
def charsLt : List Char → List Char → Bool
  | [], [] => false
  | [], _ :: _ => true
  | _ :: _, [] => false
  | c :: cs, d :: ds =>
    if c.toNat < d.toNat then true
    else if d.toNat < c.toNat then false
    else charsLt cs ds

def strLt (a b : String) : Bool :=
  charsLt a.data b.data

/-- The per-collection RocksDB instance: keys are record ids, values the
stored serialized objects.  RocksDB iterates keys in ascending order, so
the model keeps the list sorted by key (`dbPut` is ordered insertion,
mirroring the engine's sorted key space that `seek_to_first`/`next`
expose). -/
abbrev RecordDB := List (String × JsonObj)

def dbPut : RecordDB → String → JsonObj → RecordDB
  | [], k, v => [(k, v)]
  | (k1, v1) :: rest, k, v =>
    if strLt k k1 then (k, v) :: (k1, v1) :: rest
    else if k == k1 then (k, v) :: rest
    else (k1, v1) :: dbPut rest k v

/-- `Rdict.delete` — removes the key if present (no error if absent). -/
def dbDelete (db : RecordDB) (id : String) : RecordDB :=
  db.filter (fun kv => kv.1 != id)

/-- Python-side exceptions relevant to the collection layer. -/
inductive PyErr where
  | keyError (msg : String)
  | validationError (msg : String)
  | typeError (msg : String)
  | assertionError (msg : String)
  | quipu (status : Int) (detail : String)
deriving DecidableEq, Repr

/-- `exception_handler` in `lib/utils.py`: a `QuipubaseException` is
re-raised with its own status code; every other exception is wrapped with
status 500. -/
def excStatus : PyErr → Int
  | .quipu s _ => s
  | _ => 500

structure HttpErr where
  status : Int
deriving DecidableEq, Repr

def handleExc {α : Type} : Except PyErr α → Except HttpErr α
  | .ok a => .ok a
  | .error e => .error ⟨excStatus e⟩

/-- `Collection.retrieve` body: `db().get(id)`; `None` raises
`KeyError("Record id not found")`; otherwise the bytes are parsed and
`model_validate`d. -/
def retrieveRaw (sig : Sig) (fresh : String) (db : RecordDB) (id : String) :
    Except PyErr RecordVal :=
  match db.lookup id with
  | none => .error (.keyError ("Record " ++ id ++ " not found"))
  | some obj =>
    match deserialize sig fresh obj with
    | some r => .ok r
    | none => .error (.validationError "model_validate failed")

/-- `Collection.retrieve` as seen by callers: the `@handle` decorator
applies `exception_handler`, so the `KeyError` of a missing record
surfaces with status 500. -/
def retrieve (sig : Sig) (fresh : String) (db : RecordDB) (id : String) :
    Except HttpErr RecordVal :=
  handleExc (retrieveRaw sig fresh db id)

/-- `Collection.create`: assign an id if null, serialize with
`exclude_none`, and `put` under the id key. -/
def createRec (fresh : String) (db : RecordDB) (r : RecordVal) :
    RecordDB × RecordVal :=
  let r1 := withId fresh r
  (dbPut db (idString r1) (serialize r1), r1)

/-- `Collection.update` body: retrieve, `model_dump()`, overwrite each
patch key that is already a key of the dump and is not `"id"`, re-validate
the patched dump, and `create()` the result (which persists it and
returns the updated instance). -/
def updateRec (sig : Sig) (fresh : String) (db : RecordDB) (id : String)
    (patch : JsonObj) : Except PyErr (RecordDB × RecordVal) :=
  match retrieveRaw sig fresh db id with
  | .error e => .error e
  | .ok record =>
    let rd := patch.foldl
      (fun acc kv =>
        if (acc.lookup kv.1).isSome && kv.1 != "id" then setField acc kv.1 kv.2
        else acc)
      (modelDump record)
    match deserialize sig fresh rd with
    | none => .error (.validationError "model_validate failed")
    | some updated => .ok (createRec fresh db updated)

/-- The filter check of `Collection.find`:
`all(data.get(k) == v for k, v in kwargs.items() if k != "id")` — note
that a filter on `"id"` is skipped, and `dict.get` yields `None` for
missing keys. -/
def matchesFilter (data : JsonObj) (filters : JsonObj) : Bool :=
  filters.all (fun kv => kv.1 == "id" || (data.lookup kv.1).getD JVal.null == kv.2)

/-- The scan loop of `Collection.find` after the offset was consumed:
runs while records remain and `limit > 0`; a record that matches is
yielded (as its validated instance) and decrements `limit`; a record
whose parse/validation raises is logged and skipped without touching
`limit`. -/
def findGo (sig : Sig) (fresh : String) :
    List JsonObj → JsonObj → Nat → List RecordVal
  | [], _, _ => []
  | obj :: rest, filters, limit =>
    if limit = 0 then []
    else if matchesFilter obj filters then
      match deserialize sig fresh obj with
      | some r => r :: findGo sig fresh rest filters (limit - 1)
      | none => findGo sig fresh rest filters limit
    else findGo sig fresh rest filters limit

/-- `Collection.find(limit, offset, **kwargs)`: seek to the first key and
skip `offset` raw iterator positions before the filtered scan. -/
def findRecs (sig : Sig) (fresh : String) (db : RecordDB) (filters : JsonObj)
    (limit offset : Nat) : List RecordVal :=
  findGo sig fresh ((db.drop offset).map Prod.snd) filters limit

/-! ## The object router (`objects/router.py`) and pub/sub surface -/

/-- `QuipuActions` in `typedefs.py`. -/
inductive QEvent where
  | create
  | read
  | update
  | delete
  | query
  | stop
deriving DecidableEq, Repr

/-- `QuipubaseRequest`: the mutation-request body
`(event, id?, data?)`. -/
structure QuipubaseRequest where
  event : QEvent
  id : Option String := none
  data : Option JsonObj := none
deriving DecidableEq, Repr

/-- The `data` slot of a response: one record or the list a `query`
yields (`data: T | list[T]`). -/
inductive ItemData where
  | one (r : RecordVal)
  | many (rs : List RecordVal)
deriving DecidableEq, Repr

/-- `SubResponse` — the event model published on the collection topic.
Its only fields are `event` and `data`. -/
structure SubResponse where
  event : QEvent
  data : ItemData
deriving DecidableEq, Repr

/-- `PubResponse` — the HTTP response body of the POST handler. -/
structure PubResponse where
  collection : String
  data : ItemData
  event : QEvent
deriving DecidableEq, Repr

/-- `find(**req.data)`: a `"limit"`/`"offset"` key of the filter map is
captured by the keyword parameter of the same name when it parses as an
int. -/
def getIntArg (data : JsonObj) (key : String) (dflt : Nat) : Nat :=
  match data.lookup key with
  | some (.int n) => n.toNat
  | _ => dflt

/-- A `"limit"`/`"offset"` entry bound to a non-int value makes the
comparison `limit > 0` inside `find` raise a `TypeError`. -/
def badIntArg (data : JsonObj) (key : String) : Bool :=
  match data.lookup key with
  | none => false
  | some (.int _) => false
  | some _ => true

/-- The branch dispatch of the POST `/objects/collection_id` handler,
returning the resulting store and the `item` bound by the handler
(`none` exactly on the `stop` path).  Mirrors `router.py` lines 28-55:

* `req.id` present and event in update/delete: retrieve the item; with
  data, call `item.update(id=item.id, **req.data)` — whose return value
  the handler drops, leaving `item` bound to the pre-image; a data map
  that itself carries `id` makes the call raise `TypeError` (duplicate
  keyword); without data, delete the key.
* otherwise, data present and event in create/update: `model_validate`
  the data; if the instance has an id and the event is update, call
  `update`; else `create` it.
* `query`: `list(find(**req.data or dict()))`.
* `read`: assert an id and retrieve.
* anything else: `assert req.event == "stop"`. -/
def routerBranch (sig : Sig) (fresh : String) (db : RecordDB)
    (req : QuipubaseRequest) : Except PyErr (RecordDB × Option ItemData) :=
  if req.id.isSome && (req.event == .update || req.event == .delete) then
    match retrieveRaw sig fresh db (req.id.getD "") with
    | .error e => .error e
    | .ok item =>
      match req.data with
      | some patch =>
        if (patch.lookup "id").isSome then
          .error (.typeError "update got multiple values for keyword id")
        else
          match updateRec sig fresh db (idString item) patch with
          | .error e => .error e
          | .ok (db1, _updated) => .ok (db1, some (.one item))
      | none => .ok (dbDelete db (req.id.getD ""), some (.one item))
  else if req.data.isSome && (req.event == .create || req.event == .update) then
    match deserialize sig fresh (req.data.getD []) with
    | none => .error (.validationError "model_validate failed")
    | some item =>
      if recId item != JVal.null && req.event == .update then
        if ((req.data.getD []).lookup "id").isSome then
          .error (.typeError "update got multiple values for keyword id")
        else
          match updateRec sig fresh db (idString item) (req.data.getD []) with
          | .error e => .error e
          | .ok (db1, _updated) => .ok (db1, some (.one item))
      else
        let created := createRec fresh db item
        .ok (created.1, some (.one created.2))
  else if req.event == .query then
    let data := req.data.getD []
    if badIntArg data "limit" || badIntArg data "offset" then
      .error (.typeError "order comparison not supported")
    else
      let filters := data.filter (fun kv => kv.1 != "limit" && kv.1 != "offset")
      .ok (db, some (.many (findRecs sig fresh db filters
        (getIntArg data "limit" 100) (getIntArg data "offset" 0))))
  else if req.event == .read then
    match req.id with
    | none => .error (.assertionError "Not id provided for read request")
    | some i =>
      match retrieveRaw sig fresh db i with
      | .error e => .error e
      | .ok item => .ok (db, some (.one item))
  else if req.event == .stop then
    .ok (db, none)
  else
    .error (.assertionError "event assertion failed")

/-- The full POST handler: after the branch, a `None` item raises
`QuipubaseException(-12500)`; otherwise one `SubResponse` is published on
the collection channel and the `PubResponse` is returned.  The result
carries the store after the mutation, the list of published events, and
the HTTP body. -/
def routerPost (sig : Sig) (fresh : String) (col : String) (db : RecordDB)
    (req : QuipubaseRequest) :
    Except HttpErr (RecordDB × List SubResponse × PubResponse) :=
  match routerBranch sig fresh db req with
  | .error e => .error ⟨excStatus e⟩
  | .ok (_, none) => .error ⟨excStatus (.quipu (-12500) "No data available")⟩
  | .ok (db1, some item) =>
    .ok (db1, [⟨req.event, item⟩], ⟨col, item, req.event⟩)

/-! ## `PubSub.pub` (`objects/service.py`) -/

/-- Full JSON trees, for the wire payload a publish emits. -/
inductive Json where
  | null
  | bool (b : Bool)
  | str (s : String)
  | int (n : Int)
  | arr (xs : List Json)
  | obj (fields : List (String × Json))

def jvalJson : JVal → Json
  | .null => .null
  | .bool b => .bool b
  | .str s => .str s
  | .int n => .int n

def eventName : QEvent → String
  | .create => "create"
  | .read => "read"
  | .update => "update"
  | .delete => "delete"
  | .query => "query"
  | .stop => "stop"

/-- `model_dump_json` of a record inside an event payload (no
`exclude_none` here): every field, declared then extra. -/
def recordJson (r : RecordVal) : Json :=
  .obj ((r.decl ++ r.extras).map (fun kv => (kv.1, jvalJson kv.2)))

def itemJson : ItemData → Json
  | .one r => recordJson r
  | .many rs => .arr (rs.map recordJson)

/-- `SubResponse.model_dump_json()`: an object with exactly the fields
`event` and `data`. -/
def subResponseJson (e : SubResponse) : Json :=
  .obj [("event", .str (eventName e.event)), ("data", itemJson e.data)]

/-- `PubSub.pub(channel, event)` = `cache_store.publish(channel,
event.model_dump_json())`: the pair handed to the Redis channel.  No
state is read or written besides the broker delivery itself. -/
def pub (channel : String) (event : SubResponse) : String × Json :=
  (channel, subResponseJson event)

/-- Top-level keys of a JSON object payload. -/
def topKeys : Json → List String
  | .obj fields => fields.map Prod.fst
  | _ => []

/-! ## The record model compiler (`JsonSchemaModel` in `typedefs.py`) -/

mutual
/-- A JSON Schema node as `JsonSchemaModel._process_type` consumes it:
a scalar `type` tag, an `enum` list (with the `type` tag the code falls
back to when the enum is empty or mixed-kind), an `array` with `items`,
or an `object` with `properties` and a `required` list.  The property map
is a sibling inductive so that the compiler can recurse structurally. -/
inductive JSchema where
  | scalar (typ : String)
  | enumOf (vals : List JVal) (typ : String)
  | arrayOf (items : JSchema)
  | objectOf (props : JProps) (required : List String)

/-- The ordered `properties` map of an object schema. -/
inductive JProps where
  | nil
  | cons (name : String) (s : JSchema) (rest : JProps)
end

/-- The Python runtime type a schema property compiles to.  `str`, `int`,
`float`, `bool`, `dict`, `list`, `noneType` are the values of `MAPPING`;
`literal` is `tp.Literal[...]`; `listOf` is `tp.List[...]`; `optional`
is the `tp.Optional[...]` wrapper of a non-required field; `model` is a
`create_model` product whose fields carry their type and required flag. -/
inductive PyType where
  | str
  | int
  | float
  | bool
  | dict
  | list
  | noneType
  | literal (vals : List JVal)
  | listOf (t : PyType)
  | optional (t : PyType)
  | model (fields : List (String × PyType × Bool))

/-- `MAPPING.get(schema_type, str)`. -/
def mappingType : String → PyType
  | "string" => .str
  | "integer" => .int
  | "number" => .float
  | "boolean" => .bool
  | "object" => .dict
  | "array" => .list
  | "null" => .noneType
  | _ => .str

/-- `isinstance(v, type(enum_values[0]))` over the whole list. -/
def jkind : JVal → Nat
  | .null => 0
  | .bool _ => 1
  | .str _ => 2
  | .int _ => 3

def homogeneous : List JVal → Bool
  | [] => false
  | v :: vs => vs.all (fun w => jkind w == jkind v)

mutual
/-- `JsonSchemaModel._process_type(schema, depth)`: nesting deeper than
10 returns `str` unconditionally; an `enum` of one kind becomes a
`Literal`; an object with properties becomes a nested `create_model`
(required fields keep their type, others are wrapped `Optional` and
default to `None`); an array maps its items; anything else goes through
`MAPPING`. -/
def processType : JSchema → Nat → PyType
  | s, depth =>
    if depth > 10 then .str
    else
      match s with
      | .enumOf vals typ =>
        if homogeneous vals then .literal vals else mappingType typ
      | .objectOf props required => .model (processProps props required depth)
      | .arrayOf items => .listOf (processType items (depth + 1))
      | .scalar typ => mappingType typ

/-- The loop over `schema["properties"].items()` inside the object
branch of `_process_type`. -/
def processProps : JProps → List String → Nat → List (String × PyType × Bool)
  | .nil, _, _ => []
  | .cons name s rest, required, depth =>
    let isReq := required.contains name
    let t := processType s (depth + 1)
    (name, (if isReq then t else .optional t), isReq) ::
      processProps rest required depth
end

/-- The loop of `JsonSchemaModel.create_class`: each top-level property
is processed at depth 0 (the default of `_process_type`) and marked
required when the schema's `required` lists it. -/
def createClassFieldsGo : JProps → List String → List (String × PyType × Bool)
  | .nil, _ => []
  | .cons name s rest, required =>
    let isReq := required.contains name
    let t := processType s 0
    (name, (if isReq then t else .optional t), isReq) ::
      createClassFieldsGo rest required

/-- `JsonSchemaModel.create_class`: the `required` list of the model is
`Optional` and defaults to `None`, making every field optional then. -/
def createClassFields (props : JProps) (required : Option (List String)) :
    List (String × PyType × Bool) :=
  createClassFieldsGo props (required.getD [])

/-! ## `CollectionManager` (`service.py`) -/

mutual
/-- A canonical rendering of a schema document, standing in for
`json.dumps(cls.model_json_schema(), sort_keys=True)`: a deterministic
injective-up-to-hash-collision text of the schema.  `Collection.col_id`
applies `encrypt` (a sha256 hex digest) to this text; the digest adds
nothing the claims depend on beyond determinism, so the model uses the
canonical text itself as the id. -/
def renderSchema : JSchema → String
  | .scalar typ => "scalar:" ++ typ
  | .enumOf vals typ => "enum:" ++ typ ++ ":" ++ toString (vals.map jkind)
  | .arrayOf items => "array[" ++ renderSchema items ++ "]"
  | .objectOf props required =>
    "object[" ++ renderProps props ++ "]req" ++ toString required

def renderProps : JProps → String
  | .nil => ""
  | .cons name s rest => name ++ "=" ++ renderSchema s ++ ";" ++ renderProps rest
end

/-- `Collection.col_id()` = `encrypt(json.dumps(model_json_schema,
sort_keys=True))` — a deterministic function of the schema content. -/
def colId (s : JSchema) : String :=
  renderSchema s

/-- The `./data/meta` registry plus the per-collection record
directories under `./data/collections`. -/
structure SysState where
  meta : List (String × JSchema)
  dirs : List (String × RecordDB)

/-- `CollectionManager.create_collection`: compile the class, compute
`col_id`; if an entry for `col_id` already exists, return it
(`get_collection`) without writing; otherwise persist the schema under
`col_id` and return it.  In both cases the HTTP body carries the
`col_id` as `id`. -/
def createCollection (st : SysState) (s : JSchema) : SysState × String :=
  let cid := colId s
  match st.meta.lookup cid with
  | some _ => (st, cid)
  | none => ({ st with meta := st.meta ++ [(cid, s)] }, cid)

/-- `CollectionManager.delete_collection`: a missing `col_id` raises
`HTTPException(404)`, which the `except HTTPException` arm converts into
the body `code: 500`; otherwise the collection directory is removed with
`shutil.rmtree`, the registry entry deleted, and `code: 0` returned.
(The `code: 1` arm fires only on non-HTTP I/O failures, which the model
does not represent.) -/
def deleteCollection (st : SysState) (cid : String) : SysState × Int :=
  match st.meta.lookup cid with
  | none => (st, 500)
  | some _ =>
    ({ meta := st.meta.filter (fun kv => kv.1 != cid),
       dirs := st.dirs.filter (fun kv => kv.1 != cid) }, 0)

/-! ## Fixtures: the spec's running Task example -/

/-- The compiled model of the Task schema of §8 scenario 1:
`properties` title/done, `required` both, plus the injected optional
`id`. -/
def taskSig : Sig :=
  [⟨"id", .string, false⟩, ⟨"title", .string, true⟩, ⟨"done", .boolean, true⟩]

/-- A stored Task record (pre-image of scenario 3). -/
def taskObj : JsonObj :=
  [("id", .str "r1"), ("title", .str "buy milk"), ("done", .bool false)]

/-- The post-image after the update of scenario 3. -/
def taskObjDone : JsonObj :=
  [("id", .str "r1"), ("title", .str "buy milk"), ("done", .bool true)]

/-- The validated instance of `taskObj`. -/
def taskRec : RecordVal :=
  ⟨[("id", .str "r1"), ("title", .str "buy milk"), ("done", .bool false)], []⟩

/-- A one-record store holding `taskObj` under its id. -/
def taskDB : RecordDB := [("r1", taskObj)]

/-- A schema nested `n` objects deep: `object a: object a: … boolean`. -/
def nestSchema : Nat → JSchema
  | 0 => .scalar "boolean"
  | n + 1 => .objectOf (.cons "a" (nestSchema n) .nil) ["a"]

/-- A compiled type nested `n` models deep whose innermost field type is
the degraded `str`. -/
def expectedDeep : Nat → PyType
  | 0 => .str
  | n + 1 => .model [("a", expectedDeep n, true)]

/-- The find semantics the claim describes, word for word: yield the
records for which every filter field (including `id`) equals the given
value, skip the first `offset` matching records, emit at most `limit`
of them. -/
def specFindRecs (sig : Sig) (fresh : String) (db : RecordDB)
    (filters : JsonObj) (limit offset : Nat) : List RecordVal :=
  (((((db.map Prod.snd).filter
      (fun o => filters.all
        (fun kv => (o.lookup kv.1).getD JVal.null == kv.2))).drop offset).take
    limit).filterMap (deserialize sig fresh))

/-- A two-record store for the find counterexample, in ascending key
order. -/
def findSig : Sig := [⟨"id", .string, false⟩, ⟨"done", .boolean, false⟩]

def findDB : RecordDB :=
  [("a", [("id", .str "a"), ("done", .bool false)]),
   ("b", [("id", .str "b"), ("done", .bool true)])]

/-! ## Round-trip development (serialize and deserialize) -/

/-- The declared field names of a compiled model, in order. -/
def sigNames (sig : Sig) : List String :=
  sig.map (fun f => f.name)

/-- Do the declared values of a record satisfy their field types (with
null only on optional fields)?  This is what a successful validation
guarantees about the declared part. -/
def typedOk (sig : Sig) (r : RecordVal) : Bool :=
  sig.all (fun f =>
    match r.decl.lookup f.name with
    | none => true
    | some JVal.null => !f.required
    | some v => okVal f.type v)

/-- A record as a successful `model_validate` produces it: the declared
fields are exactly the signature names in order and well-typed, the
signature has no duplicate names, and every extra field is undeclared. -/
def validatedRec (sig : Sig) (r : RecordVal) : Prop :=
  r.decl.map Prod.fst = sigNames sig ∧
  (sigNames sig).Nodup ∧
  r.extras.all (fun kv => !(declared sig kv.1)) = true ∧
  typedOk sig r = true

/-- The `id` field, when declared, is not null (true of every record the
store holds, since `create` assigns an id before writing). -/
def idOk (r : RecordVal) : Bool :=
  match r.decl.lookup "id" with
  | some JVal.null => false
  | _ => true

/-- No extra field holds null (the case `exclude_none` would drop
irrecoverably). -/
def noNullExtras (r : RecordVal) : Bool :=
  r.extras.all (fun kv => kv.2 != JVal.null)

/-! ## Association-list helper lemmas -/

theorem lookup_filter_key_ne {β : Type} (l : List (String × β)) (k : String) :
    (l.filter (fun kv => kv.1 != k)).lookup k = none := by
  induction l with
  | nil => rfl
  | cons hd tl ih =>
    by_cases h : hd.1 = k
    · simp [List.filter_cons, h, ih]
    · have hb : (k == hd.1) = false := by simpa using Ne.symm h
      simp [List.filter_cons, bne_iff_ne, h, List.lookup, hb, ih]

theorem lookup_append_or {β : Type} (p q : List (String × β)) (k : String) :
    (p ++ q).lookup k = (p.lookup k).or (q.lookup k) := by
  induction p with
  | nil => simp
  | cons hd tl ih =>
    by_cases h : k = hd.1
    · have hb : (k == hd.1) = true := by simpa using h
      simp [List.lookup, hb]
    · have hb : (k == hd.1) = false := by simpa using h
      simp [List.lookup, hb, ih]

theorem lookup_eq_none_iff {β : Type} (l : List (String × β)) (k : String) :
    l.lookup k = none ↔ ∀ kv ∈ l, kv.1 ≠ k := by
  induction l with
  | nil => simp
  | cons hd tl ih =>
    by_cases h : k = hd.1
    · have hb : (k == hd.1) = true := by simpa using h
      simp only [List.lookup, hb]
      constructor
      · intro hc; cases hc
      · intro ha
        exact absurd h (Ne.symm (ha hd (List.mem_cons_self hd tl)))
    · have hb : (k == hd.1) = false := by simpa using h
      simp only [List.lookup, hb, ih, List.mem_cons]
      constructor
      · intro ha kv hkv
        cases hkv with
        | inl he => subst he; exact fun hc => h hc.symm
        | inr hm => exact ha kv hm
      · intro ha kv hkv
        exact ha kv (Or.inr hkv)

theorem lookup_of_mem_nodup {β : Type} (l : List (String × β)) (k : String)
    (v : β) (hnd : (l.map Prod.fst).Nodup) (hm : (k, v) ∈ l) :
    l.lookup k = some v := by
  induction l with
  | nil => cases hm
  | cons hd tl ih =>
    simp only [List.map_cons, List.nodup_cons] at hnd
    cases List.mem_cons.mp hm with
    | inl he =>
      subst he
      simp [List.lookup]
    | inr hm2 =>
      have hk : (k == hd.1) = false := by
        have : k ≠ hd.1 := by
          intro he
          exact hnd.1 (he ▸ List.mem_map_of_mem Prod.fst hm2)
        simpa using this
      simp only [List.lookup, hk]
      exact ih hnd.2 hm2

/-! ## Claim theorems -/

/-- C1: (code bug) persisting the update succeeds — the store afterwards
holds the post-image with `done = true` — but the POST handler drops the
value `Collection.update` returns, so both the HTTP body and the
published `update` event carry the pre-image with `done = false`,
contradicting the spec's post-image contract for update responses and
events. -/
theorem update_response_carries_preimage :
    routerPost taskSig "f" "C" taskDB
        ⟨.update, some "r1", some [("done", .bool true)]⟩ =
      .ok ([("r1", taskObjDone)],
        [⟨.update, .one taskRec⟩],
        ⟨"C", .one taskRec, .update⟩) ∧
    taskRec.decl.lookup "done" = some (.bool false) ∧
    [("r1", taskObjDone)].lookup "r1" = some taskObjDone ∧
    taskObjDone.lookup "done" = some (.bool true) :=
  ⟨rfl, rfl, rfl, rfl⟩

/-- C2 counterexample: a create whose payload carries the unknown
top-level field `extra` is accepted (the collection models are built
with `extra: "allow"`), stored with the extra field, and answered with
200 — validation does not fail. -/
theorem create_unknown_field_accepted :
    routerPost taskSig "f1" "C" []
        ⟨.create, none,
          some [("title", .str "x"), ("done", .bool false), ("extra", .int 1)]⟩ =
      .ok ([("f1", [("id", .str "f1"), ("title", .str "x"),
                    ("done", .bool false), ("extra", .int 1)])],
        [⟨.create, .one ⟨[("id", .str "f1"), ("title", .str "x"),
                          ("done", .bool false)], [("extra", .int 1)]⟩⟩],
        ⟨"C", .one ⟨[("id", .str "f1"), ("title", .str "x"),
                     ("done", .bool false)], [("extra", .int 1)]⟩, .create⟩) :=
  rfl

/-- C3 counterexample: after deleting record `r1`, reading it yields an
error whose HTTP status is 500 — the `KeyError` raised by
`Collection.retrieve` is wrapped by `exception_handler` with status 500 —
not the 404 the claim states. -/
theorem read_after_delete_is_500 :
    retrieve taskSig "f" (dbDelete taskDB "r1") "r1" = .error ⟨500⟩ ∧
    (500 : Int) ≠ 404 :=
  ⟨rfl, by decide⟩

/-- C3 amended: a read of a record id that is not present in the
collection fails with status 500: the store raises `KeyError`, and the
generic arm of `exception_handler` maps every non-`QuipubaseException`
to status 500. -/
theorem retrieve_missing_is_500 (sig : Sig) (fresh : String) (db : RecordDB)
    (id : String) (h : db.lookup id = none) :
    retrieve sig fresh db id = .error ⟨500⟩ := by
  simp [retrieve, retrieveRaw, handleExc, h, excStatus]

/-- C3 witness: the empty store has no record `r1`, and reading it
returns status 500. -/
theorem retrieve_missing_is_500_witness :
    ([] : RecordDB).lookup "r1" = none ∧
    retrieve taskSig "f" [] "r1" = .error ⟨500⟩ :=
  ⟨rfl, retrieve_missing_is_500 taskSig "f" [] "r1" rfl⟩

/-- C4 counterexample: the event published for the scenario-3 update has
exactly the top-level fields `event` and `data` — no `monotonic_seq`
counter is stamped on it. -/
theorem published_event_has_no_seq :
    (pub "C" ⟨.update, .one taskRec⟩).2 =
      Json.obj [("event", .str "update"), ("data", recordJson taskRec)] ∧
    topKeys (pub "C" ⟨.update, .one taskRec⟩).2 = ["event", "data"] ∧
    ¬ ("monotonic_seq" ∈ topKeys (pub "C" ⟨.update, .one taskRec⟩).2) :=
  ⟨rfl, rfl, by decide⟩

/-- C4 amended: every published event payload is the serialization of
`SubResponse`, whose only top-level fields are `event` and `data`; the
publisher keeps no per-collection counter, so ordering is whatever the
Redis channel delivers. -/
theorem pub_payload_fields (channel : String) (event : SubResponse) :
    topKeys (pub channel event).2 = ["event", "data"] :=
  rfl

/-- C8 counterexample: a schema nested 12 objects deep compiles
successfully — `_process_type` returns plain `str` for every subtree at
depth greater than 10 instead of failing — so the depth-11 subtree,
which below the bound compiles to a one-field model, is silently
degraded to `str`.  No `SchemaTooDeep` error exists in the code. -/
theorem deep_schema_silently_degrades :
    processType (nestSchema 12) 0 = expectedDeep 11 ∧
    processType (nestSchema 1) 11 = PyType.str ∧
    nestSchema 1 = JSchema.objectOf (.cons "a" (.scalar "boolean") .nil) ["a"] ∧
    processType (nestSchema 1) 0 = PyType.model [("a", PyType.bool, true)] :=
  ⟨rfl, rfl, rfl, rfl⟩

/-- C8 amended: any subtree reached at depth greater than 10 compiles to
the degraded type `str`, whatever the schema says; compilation is total
and never raises. -/
theorem process_type_deep_is_str (s : JSchema) (depth : Nat) (h : depth > 10) :
    processType s depth = PyType.str := by
  cases s <;> simp [processType, h]

/-- C8 witness: depth 11 exceeds the bound and the boolean scalar
compiles to `str` there. -/
theorem process_type_deep_is_str_witness :
    11 > 10 ∧ processType (.scalar "boolean") 11 = PyType.str :=
  ⟨by decide, process_type_deep_is_str (.scalar "boolean") 11 (by decide)⟩

/-- C9 counterexample: deleting a collection id that is not registered
returns body code 500 (the internal `HTTPException(404)` is caught by
the `except HTTPException` arm, which returns `code: 500`), which is
neither 0 nor 1. -/
theorem delete_missing_collection_code_500 :
    (deleteCollection ⟨[], []⟩ "c").2 = 500 ∧
    ¬ ((500 : Int) = 0 ∨ (500 : Int) = 1) :=
  ⟨rfl, by decide⟩

/-- C9 amended: delete_collection answers code 0 exactly when the
collection exists, removing its schema mapping and its record directory;
a missing collection answers code 500 (the internal `HTTPException(404)`
is converted by the `except HTTPException` arm) with the state untouched.
The code 1 arm is reachable only through I/O failures outside this
model. -/
theorem delete_collection_codes (st : SysState) (cid : String) :
    ((deleteCollection st cid).2 = 0 ∨ (deleteCollection st cid).2 = 500) ∧
    ((deleteCollection st cid).2 = 0 ↔ ((st.meta.lookup cid).isSome) = true) ∧
    ((deleteCollection st cid).2 = 0 →
      (deleteCollection st cid).1.meta.lookup cid = none ∧
      (deleteCollection st cid).1.dirs.lookup cid = none) ∧
    ((deleteCollection st cid).2 = 500 → (deleteCollection st cid).1 = st) := by
  unfold deleteCollection
  cases h : st.meta.lookup cid with
  | none => simp [h]
  | some w => simp [h, lookup_filter_key_ne]

/-- C9 witness: deleting a registered collection clears its schema entry
and record directory; deleting from the empty registry leaves it
unchanged. -/
theorem delete_collection_codes_witness :
    ((deleteCollection ⟨[("cid1", nestSchema 0)], [("cid1", taskDB)]⟩
        "cid1").1.meta.lookup "cid1" = none ∧
     (deleteCollection ⟨[("cid1", nestSchema 0)], [("cid1", taskDB)]⟩
        "cid1").1.dirs.lookup "cid1" = none) ∧
    (deleteCollection ⟨[], []⟩ "c").1 = ⟨[], []⟩ :=
  ⟨(delete_collection_codes ⟨[("cid1", nestSchema 0)], [("cid1", taskDB)]⟩
      "cid1").2.2.1 rfl,
   (delete_collection_codes ⟨[], []⟩ "c").2.2.2 rfl⟩

/-- Appending an entry for a key that the payload lacks changes neither
the per-field validation nor the defaulted value of any declared field
whose name differs from that key. -/
theorem fieldOk_append_unknown (p : JsonObj) (k : String) (v : JVal)
    (f : FieldSig) (h : f.name ≠ k) :
    fieldOk (p ++ [(k, v)]) f = fieldOk p f := by
  unfold fieldOk
  rw [lookup_append_or]
  cases hp : p.lookup f.name with
  | some w => simp
  | none =>
    have hb : (f.name == k) = false := by simpa using h
    simp [List.lookup, hb]

theorem deserField_append_unknown (fresh : String) (p : JsonObj) (k : String)
    (v : JVal) (f : FieldSig) (h : f.name ≠ k) :
    deserField fresh (p ++ [(k, v)]) f = deserField fresh p f := by
  unfold deserField
  rw [lookup_append_or]
  cases hp : p.lookup f.name with
  | some w => simp
  | none =>
    have hb : (f.name == k) = false := by simpa using h
    simp [List.lookup, hb]

/-- C2 amended: an unknown top-level field never makes validation fail;
the collection models are generated with `extra: "allow"`, so the field
is accepted and kept on the record (and hence stored with it). -/
theorem validate_accepts_unknown_field (sig : Sig) (fresh : String)
    (p : JsonObj) (k : String) (v : JVal) (r : RecordVal)
    (hk : declared sig k = false) (_hp : p.lookup k = none)
    (h : deserialize sig fresh p = some r) :
    deserialize sig fresh (p ++ [(k, v)]) = some ⟨r.decl, r.extras ++ [(k, v)]⟩ := by
  have hne : ∀ f ∈ sig, f.name ≠ k := by
    intro f hf he
    have hany : sig.any (fun f => f.name == k) = true :=
      List.any_eq_true.mpr ⟨f, hf, by simpa using he⟩
    unfold declared at hk
    rw [hany] at hk
    cases hk
  unfold deserialize at h ⊢
  by_cases hall : sig.all (fieldOk p) = true
  · have hall2 : sig.all (fieldOk (p ++ [(k, v)])) = true := by
      rw [List.all_eq_true] at hall ⊢
      intro f hf
      rw [fieldOk_append_unknown p k v f (hne f hf)]
      exact hall f hf
    rw [if_pos hall] at h
    rw [if_pos hall2]
    have hdecl : sig.map (fun f => (f.name, deserField fresh (p ++ [(k, v)]) f)) =
        sig.map (fun f => (f.name, deserField fresh p f)) :=
      List.map_congr_left
        (fun f hf => by rw [deserField_append_unknown fresh p k v f (hne f hf)])
    have hext : (p ++ [(k, v)]).filter (fun kv => !(declared sig kv.1)) =
        p.filter (fun kv => !(declared sig kv.1)) ++ [(k, v)] := by
      rw [List.filter_append]
      simp [List.filter_cons, hk]
    injection h with h2
    rw [hdecl, hext, ← h2]
  · rw [if_neg hall] at h
    cases h

/-- C2 witness: the Task payload validates, and stays valid when the
unknown field `note` is appended, which lands among the extras. -/
theorem validate_accepts_unknown_field_witness :
    declared taskSig "note" = false ∧
    (([("title", JVal.str "x"), ("done", JVal.bool false)] : JsonObj).lookup
      "note" = none) ∧
    deserialize taskSig "f1" [("title", .str "x"), ("done", .bool false)] =
      some ⟨[("id", .str "f1"), ("title", .str "x"), ("done", .bool false)], []⟩ ∧
    deserialize taskSig "f1"
        ([("title", .str "x"), ("done", .bool false)] ++ [("note", .int 2)]) =
      some ⟨[("id", .str "f1"), ("title", .str "x"), ("done", .bool false)],
        [] ++ [("note", .int 2)]⟩ :=
  ⟨rfl, rfl, rfl,
    validate_accepts_unknown_field taskSig "f1"
      [("title", .str "x"), ("done", .bool false)] "note" (.int 2)
      ⟨[("id", .str "f1"), ("title", .str "x"), ("done", .bool false)], []⟩
      rfl rfl rfl⟩

/-- An entry appended on the right is found whenever the left part does
not bind the key; in particular the key is then present. -/
theorem lookup_append_single_self {β : Type} (l : List (String × β))
    (k : String) (v : β) :
    ((l ++ [(k, v)]).lookup k).isSome = true := by
  rw [lookup_append_or]
  cases h : l.lookup k with
  | some w => simp
  | none => simp [List.lookup]

/-- C5: create_collection is idempotent on schema content: the first
submission returns `colId` of the schema and leaves the registry holding
it; any later submission against any state still holding that id — no
interleaved call deleted it — returns the same id and does not change
the registry: no second collection is created. -/
theorem create_collection_idempotent (st mid : SysState) (s : JSchema)
    (hmid : ((mid.meta.lookup (colId s)).isSome) = true) :
    (createCollection st s).2 = colId s ∧
    (((createCollection st s).1.meta.lookup (colId s)).isSome) = true ∧
    createCollection mid s = (mid, colId s) := by
  refine ⟨?_, ?_, ?_⟩
  · unfold createCollection
    cases h : st.meta.lookup (colId s) <;> simp [h]
  · unfold createCollection
    cases h : st.meta.lookup (colId s) with
    | some w => simp [h]
    | none => simp [h, lookup_append_single_self]
  · obtain ⟨w, hw⟩ := Option.isSome_iff_exists.mp hmid
    unfold createCollection
    simp [hw]

/-- C5 witness: registering the Task-like schema on the empty registry,
then registering it again, returns the same id and leaves the registry
unchanged. -/
theorem create_collection_idempotent_witness :
    (((createCollection ⟨[], []⟩ (nestSchema 1)).1.meta.lookup
        (colId (nestSchema 1))).isSome) = true ∧
    createCollection (createCollection ⟨[], []⟩ (nestSchema 1)).1 (nestSchema 1) =
      ((createCollection ⟨[], []⟩ (nestSchema 1)).1, colId (nestSchema 1)) :=
  ⟨rfl,
    (create_collection_idempotent ⟨[], []⟩
      (createCollection ⟨[], []⟩ (nestSchema 1)).1 (nestSchema 1) rfl).2.2⟩

/-! ## Ordering lemmas for the key comparator and `dbPut` -/

theorem charsLt_trans (a b c : List Char) (h1 : charsLt a b = true)
    (h2 : charsLt b c = true) : charsLt a c = true := by
  induction a generalizing b c with
  | nil =>
    cases b with
    | nil => cases h1
    | cons q qs =>
      cases c with
      | nil => cases h2
      | cons r rs => rfl
  | cons p ps ih =>
    cases b with
    | nil => cases h1
    | cons q qs =>
      cases c with
      | nil => cases h2
      | cons r rs =>
        simp only [charsLt] at h1 h2 ⊢
        by_cases hpq : p.toNat < q.toNat
        · by_cases hqr : q.toNat < r.toNat
          · rw [if_pos (Nat.lt_trans hpq hqr)]
          · rw [if_neg hqr] at h2
            by_cases hrq : r.toNat < q.toNat
            · rw [if_pos hrq] at h2; cases h2
            · have heq : q.toNat = r.toNat := by omega
              rw [if_pos (heq ▸ hpq)]
        · rw [if_neg hpq] at h1
          by_cases hqp : q.toNat < p.toNat
          · rw [if_pos hqp] at h1; cases h1
          · have heqpq : p.toNat = q.toNat := by omega
            rw [if_neg hqp] at h1
            by_cases hqr : q.toNat < r.toNat
            · rw [if_pos (heqpq ▸ hqr)]
            · rw [if_neg hqr] at h2
              by_cases hrq : r.toNat < q.toNat
              · rw [if_pos hrq] at h2; cases h2
              · rw [if_neg hrq] at h2
                rw [if_neg (by omega : ¬ p.toNat < r.toNat),
                  if_neg (by omega : ¬ r.toNat < p.toNat)]
                exact ih qs rs h1 h2

theorem charsLt_eq_of_not_lt (a b : List Char) (h1 : charsLt a b = false)
    (h2 : charsLt b a = false) : a = b := by
  induction a generalizing b with
  | nil =>
    cases b with
    | nil => rfl
    | cons q qs => cases h1
  | cons p ps ih =>
    cases b with
    | nil => cases h2
    | cons q qs =>
      simp only [charsLt] at h1 h2
      by_cases hpq : p.toNat < q.toNat
      · rw [if_pos hpq] at h1; cases h1
      · by_cases hqp : q.toNat < p.toNat
        · rw [if_pos hqp] at h2; cases h2
        · rw [if_neg hpq, if_neg hqp] at h1
          rw [if_neg hqp, if_neg hpq] at h2
          have h3 : p.toNat = q.toNat := by omega
          have hc : p = q := Char.eq_of_val_eq (UInt32.ext h3)
          rw [hc, ih qs h1 h2]

theorem strLt_trans (a b c : String) (h1 : strLt a b = true)
    (h2 : strLt b c = true) : strLt a c = true :=
  charsLt_trans a.data b.data c.data h1 h2

theorem strLt_eq_of_not_lt (a b : String) (h1 : strLt a b = false)
    (h2 : strLt b a = false) : a = b :=
  String.ext (charsLt_eq_of_not_lt a.data b.data h1 h2)

theorem mem_dbPut (db : RecordDB) (k : String) (v : JsonObj)
    (x : String × JsonObj) (hx : x ∈ dbPut db k v) :
    x ∈ db ∨ x = (k, v) := by
  induction db with
  | nil => simpa [dbPut] using hx
  | cons hd tl ih =>
    by_cases h1 : strLt k hd.1
    · simp only [dbPut, h1, if_true] at hx
      rcases List.mem_cons.mp hx with he | hm
      · exact Or.inr he
      · exact Or.inl hm
    · by_cases h2 : k = hd.1
      · have hb : (k == hd.1) = true := by simpa using h2
        simp only [dbPut, h1, if_false, hb, if_true] at hx
        rcases List.mem_cons.mp hx with he | hm
        · exact Or.inr (by rw [he, h2])
        · exact Or.inl (List.mem_cons_of_mem hd hm)
      · have hb : (k == hd.1) = false := by simpa using h2
        simp only [dbPut, h1, if_false, hb] at hx
        rcases List.mem_cons.mp hx with he | hm
        · exact Or.inl (he ▸ List.mem_cons_self hd tl)
        · rcases ih hm with hm2 | he2
          · exact Or.inl (List.mem_cons_of_mem hd hm2)
          · exact Or.inr he2

/-- `dbPut` keeps the store sorted in strictly ascending key order — the
iteration order `seek_to_first`/`next` expose. -/
theorem dbPut_sorted (db : RecordDB) (k : String) (v : JsonObj)
    (hs : db.Pairwise (fun a b => strLt a.1 b.1 = true)) :
    (dbPut db k v).Pairwise (fun a b => strLt a.1 b.1 = true) := by
  induction db with
  | nil => simp [dbPut]
  | cons hd tl ih =>
    rcases List.pairwise_cons.mp hs with ⟨hhd, htl⟩
    by_cases h1 : strLt k hd.1
    · simp only [dbPut, h1, if_true]
      refine List.pairwise_cons.mpr ⟨?_, hs⟩
      intro x hx
      rcases List.mem_cons.mp hx with he | hm
      · rw [he]; exact h1
      · exact strLt_trans _ _ _ h1 (hhd x hm)
    · by_cases h2 : k = hd.1
      · have hb : (k == hd.1) = true := by simpa using h2
        simp only [dbPut, h1, if_false, hb, if_true]
        refine List.pairwise_cons.mpr ⟨?_, htl⟩
        intro x hx
        rw [h2]
        exact hhd x hx
      · have hb : (k == hd.1) = false := by simpa using h2
        simp only [dbPut, h1, if_false, hb]
        refine List.pairwise_cons.mpr ⟨?_, ih htl⟩
        intro x hx
        rcases mem_dbPut tl k v x hx with hm | he
        · exact hhd x hm
        · rw [he]
          have hfalse : strLt k hd.1 = false := by
            cases hv : strLt k hd.1 with
            | false => rfl
            | true => exact absurd hv h1
          cases hv : strLt hd.1 k with
          | true => rfl
          | false => exact absurd (strLt_eq_of_not_lt _ _ hfalse hv) h2

/-- The scan loop yields exactly the matching rows, validated, truncated
at `limit` — rows whose validation raises are skipped without consuming
`limit`. -/
theorem findGo_eq (sig : Sig) (fresh : String) (rows : List JsonObj)
    (filters : JsonObj) (limit : Nat) :
    findGo sig fresh rows filters limit =
      ((rows.filter (fun o => matchesFilter o filters)).filterMap
        (deserialize sig fresh)).take limit := by
  induction rows generalizing limit with
  | nil => simp [findGo]
  | cons o rest ih =>
    by_cases h0 : limit = 0
    · subst h0
      simp [findGo]
    · obtain ⟨n, rfl⟩ := Nat.exists_eq_succ_of_ne_zero h0
      by_cases hm : matchesFilter o filters
      · cases hd : deserialize sig fresh o with
        | some r =>
          simp [findGo, hm, hd, List.filter_cons, List.filterMap_cons, ih]
        | none =>
          simp [findGo, hm, hd, List.filter_cons, List.filterMap_cons, ih]
      · have hmf : matchesFilter o filters = false := by
          cases hv : matchesFilter o filters with
          | false => rfl
          | true => exact absurd hv hm
        simp [findGo, hmf, List.filter_cons, ih]

/-- C7 counterexample: with filter `done = true`, `offset = 1`,
`limit = 10` on a store whose first record does not match, the code
yields the second record — it skipped one raw record, not one matching
record, so the claim's semantics (which would yield nothing: there is
only one matching record and it is skipped) disagrees.  Moreover a
filter on `id` is ignored: filtering for `id = "zzz"` still yields the
record whose id is `"a"`. -/
theorem find_offset_and_id_filter_counterexample :
    findRecs findSig "f" findDB [("done", .bool true)] 10 1 =
      [⟨[("id", .str "b"), ("done", .bool true)], []⟩] ∧
    specFindRecs findSig "f" findDB [("done", .bool true)] 10 1 = [] ∧
    findRecs findSig "f" [("a", [("id", .str "a"), ("done", .bool false)])]
        [("id", .str "zzz")] 10 0 =
      [⟨[("id", .str "a"), ("done", .bool false)], []⟩] :=
  ⟨rfl, rfl, rfl⟩

/-- C7 amended: `find` scans the store in ascending key order (`dbPut`
maintains sortedness and the scan follows it), skips the first `offset`
raw records of the scan — matching or not — then yields the validated
records that match every filter field except `id`, which is ignored, and
stops after `limit` matches. -/
theorem find_semantics (sig : Sig) (fresh : String) (db : RecordDB)
    (filters : JsonObj) (limit offset : Nat) (o : JsonObj) (v : JVal)
    (k : String) (stored : JsonObj)
    (hs : db.Pairwise (fun a b => strLt a.1 b.1 = true)) :
    findRecs sig fresh db filters limit offset =
      ((((db.drop offset).map Prod.snd).filter
        (fun x => matchesFilter x filters)).filterMap
          (deserialize sig fresh)).take limit ∧
    matchesFilter o (("id", v) :: filters) = matchesFilter o filters ∧
    (dbPut db k stored).Pairwise (fun a b => strLt a.1 b.1 = true) := by
  refine ⟨?_, ?_, dbPut_sorted db k stored hs⟩
  · unfold findRecs
    exact findGo_eq sig fresh ((db.drop offset).map Prod.snd) filters limit
  · simp [matchesFilter]

/-- C7 witness: the amended semantics at the concrete counterexample
store, which is sorted; inserting key `"c"` keeps it sorted. -/
theorem find_semantics_witness :
    findDB.Pairwise (fun a b => strLt a.1 b.1 = true) ∧
    (findRecs findSig "f" findDB [("done", .bool true)] 10 1 =
      ((((findDB.drop 1).map Prod.snd).filter
        (fun x => matchesFilter x [("done", .bool true)])).filterMap
          (deserialize findSig "f")).take 10 ∧
    matchesFilter [("id", .str "a")] (("id", .str "zzz") ::
        [("done", .bool true)]) =
      matchesFilter [("id", .str "a")] [("done", .bool true)] ∧
    (dbPut findDB "c" []).Pairwise (fun a b => strLt a.1 b.1 = true)) :=
  ⟨by decide,
    find_semantics findSig "f" findDB [("done", .bool true)] 10 1
      [("id", .str "a")] (.str "zzz") "c" [] (by decide)⟩

theorem lookup_filter_nonnull (l : List (String × JVal))
    (hnd : (l.map Prod.fst).Nodup) (k : String) (v : JVal) (hm : (k, v) ∈ l) :
    (l.filter (fun kv => kv.2 != JVal.null)).lookup k =
      if v = JVal.null then none else some v := by
  induction l with
  | nil => cases hm
  | cons hd tl ih =>
    simp only [List.map_cons, List.nodup_cons] at hnd
    rcases List.mem_cons.mp hm with he | hm2
    · cases he
      by_cases hv : v = JVal.null
      · rw [if_pos hv]
        subst hv
        simp only [List.filter_cons, bne_self_eq_false, Bool.false_eq_true,
          if_false]
        refine (lookup_eq_none_iff _ _).mpr ?_
        intro kv2 hkv2 hke
        have hmem : kv2.1 ∈ tl.map Prod.fst :=
          List.mem_map_of_mem Prod.fst (List.mem_of_mem_filter hkv2)
        rw [hke] at hmem
        exact hnd.1 hmem
      · rw [if_neg hv]
        have ht : ((k, v).2 != JVal.null) = true := by simpa using hv
        simp [List.filter_cons, ht, List.lookup]
    · have hk : k ≠ hd.1 := by
        intro he2
        exact hnd.1 (he2 ▸ List.mem_map_of_mem Prod.fst hm2)
      have hb : (k == hd.1) = false := by simpa using hk
      by_cases hh : hd.2 = JVal.null
      · have hf : (hd.2 != JVal.null) = false := by simpa using hh
        simp only [List.filter_cons, hf, if_false]
        exact ih hnd.2 hm2
      · have ht : (hd.2 != JVal.null) = true := by simpa using hh
        simp only [List.filter_cons, ht, if_true, List.lookup, hb]
        exact ih hnd.2 hm2

/-- Looking a declared field up in the serialized record finds its value
when non-null, and nothing when null. -/
theorem ser_lookup_decl (sig : Sig) (r : RecordVal)
    (hnames : r.decl.map Prod.fst = sigNames sig)
    (hnodup : (sigNames sig).Nodup)
    (hex : r.extras.all (fun kv => !(declared sig kv.1)) = true) :
    ∀ kv ∈ r.decl, (serialize r).lookup kv.1 =
      if kv.2 = JVal.null then none else some kv.2 := by
  intro kv hkv
  obtain ⟨n, v⟩ := kv
  have hdeclnodup : (r.decl.map Prod.fst).Nodup := by rw [hnames]; exact hnodup
  unfold serialize
  rw [List.filter_append, lookup_append_or,
    lookup_filter_nonnull r.decl hdeclnodup n v hkv]
  have hextras : (r.extras.filter (fun kv => kv.2 != JVal.null)).lookup n =
      none := by
    refine (lookup_eq_none_iff _ _).mpr ?_
    intro kv2 hkv2 he
    have hm2 := List.mem_of_mem_filter hkv2
    have hfalse := (List.all_eq_true.mp hex) kv2 hm2
    have hmemname : n ∈ sigNames sig := by
      rw [← hnames]
      exact List.mem_map_of_mem Prod.fst hkv
    obtain ⟨f, hf, hfe⟩ := List.mem_map.mp hmemname
    have htrue : declared sig n = true :=
      List.any_eq_true.mpr ⟨f, hf, by simpa using hfe⟩
    rw [he, htrue] at hfalse
    cases hfalse
  rw [hextras]
  by_cases hv : v = JVal.null <;> simp [hv]

/-- The serialized record passes validation again. -/
theorem ser_fieldOk (sig : Sig) (r : RecordVal)
    (hnames : r.decl.map Prod.fst = sigNames sig)
    (hnodup : (sigNames sig).Nodup)
    (hex : r.extras.all (fun kv => !(declared sig kv.1)) = true)
    (htyped : typedOk sig r = true) :
    sig.all (fieldOk (serialize r)) = true := by
  rw [List.all_eq_true]
  intro f hf
  have hmemname : f.name ∈ r.decl.map Prod.fst := by
    rw [hnames]
    exact List.mem_map_of_mem (fun f => f.name) hf
  obtain ⟨kv, hkv, hkve⟩ := List.mem_map.mp hmemname
  obtain ⟨n, v⟩ := kv
  cases hkve
  have hchar := ser_lookup_decl sig r hnames hnodup hex (f.name, v) hkv
  have hdeclnodup : (r.decl.map Prod.fst).Nodup := by rw [hnames]; exact hnodup
  have hlook : r.decl.lookup f.name = some v :=
    lookup_of_mem_nodup _ _ _ hdeclnodup hkv
  have htypedf := (List.all_eq_true.mp htyped) f hf
  rw [hlook] at htypedf
  unfold fieldOk
  rw [hchar]
  by_cases hv : v = JVal.null
  · rw [if_pos hv]
    rw [hv] at htypedf
    exact htypedf
  · rw [if_neg hv]
    cases v with
    | null => exact absurd rfl hv
    | bool b => exact htypedf
    | str s => exact htypedf
    | int n2 => exact htypedf

/-- Re-validating the serialized record rebuilds the declared part
exactly, provided the id (when declared) was not null. -/
theorem decl_reconstruct (fresh : String) (obj : JsonObj) :
    ∀ (sig2 : Sig) (decl2 : List (String × JVal)),
    decl2.map Prod.fst = sigNames sig2 →
    (∀ kv ∈ decl2, obj.lookup kv.1 =
      if kv.2 = JVal.null then none else some kv.2) →
    (∀ kv ∈ decl2, kv.1 = "id" → kv.2 ≠ JVal.null) →
    sig2.map (fun f => (f.name, deserField fresh obj f)) = decl2 := by
  intro sig2
  induction sig2 with
  | nil =>
    intro decl2 hnames _ _
    cases decl2 with
    | nil => rfl
    | cons hd tl => simp [sigNames] at hnames
  | cons f sigT ih =>
    intro decl2 hnames hchar hid
    cases decl2 with
    | nil => simp [sigNames] at hnames
    | cons hd declT =>
      obtain ⟨n, v⟩ := hd
      simp only [List.map_cons, sigNames, List.cons.injEq] at hnames
      obtain ⟨h1, h2⟩ := hnames
      subst h1
      simp only [List.map_cons, List.cons.injEq]
      constructor
      · unfold deserField
        rw [hchar (f.name, v) (List.mem_cons_self _ _)]
        by_cases hv : v = JVal.null
        · rw [if_pos hv]
          by_cases hi : f.name = "id"
          · exact absurd hv (hid (f.name, v) (List.mem_cons_self _ _) hi)
          · have hb : (f.name == "id") = false := by simpa using hi
            simp [hb, hv]
        · rw [if_neg hv]
      · exact ih declT h2
          (fun kv hkv => hchar kv (List.mem_cons_of_mem _ hkv))
          (fun kv hkv => hid kv (List.mem_cons_of_mem _ hkv))

/-- Re-validating the serialized record keeps exactly the non-null
extras. -/
theorem extras_reconstruct (sig : Sig) (r : RecordVal)
    (hnames : r.decl.map Prod.fst = sigNames sig)
    (hex : r.extras.all (fun kv => !(declared sig kv.1)) = true) :
    (serialize r).filter (fun kv => !(declared sig kv.1)) =
      r.extras.filter (fun kv => kv.2 != JVal.null) := by
  unfold serialize
  rw [List.filter_append]
  have hdecl : ((r.decl.filter (fun kv => kv.2 != JVal.null)).filter
      (fun kv => !(declared sig kv.1))) = [] := by
    rw [List.filter_eq_nil_iff]
    intro kv hkv
    have hm := List.mem_of_mem_filter hkv
    have hmemname : kv.1 ∈ sigNames sig := by
      rw [← hnames]
      exact List.mem_map_of_mem Prod.fst hm
    obtain ⟨f, hf, hfe⟩ := List.mem_map.mp hmemname
    have htrue : declared sig kv.1 = true :=
      List.any_eq_true.mpr ⟨f, hf, by simpa using hfe⟩
    simp [htrue]
  have hext : ((r.extras.filter (fun kv => kv.2 != JVal.null)).filter
      (fun kv => !(declared sig kv.1))) =
      r.extras.filter (fun kv => kv.2 != JVal.null) := by
    rw [List.filter_eq_self]
    intro kv hkv
    exact (List.all_eq_true.mp hex) kv (List.mem_of_mem_filter hkv)
  rw [List.filter_append, hdecl, hext, List.nil_append]

/-- C6 amended: for every validated record whose id is non-null, the
stored bytes re-validate to the record with its null-valued extras
dropped, and re-serializing that yields the stored bytes again
(byte-stable round-trip); when no extra is null — in particular when
there are no extras — deserialization restores the record exactly. -/
theorem roundtrip (sig : Sig) (fresh : String) (r : RecordVal)
    (hv : validatedRec sig r) (hid : idOk r = true) :
    deserialize sig fresh (serialize r) =
      some ⟨r.decl, r.extras.filter (fun kv => kv.2 != JVal.null)⟩ ∧
    serialize ⟨r.decl, r.extras.filter (fun kv => kv.2 != JVal.null)⟩ =
      serialize r ∧
    (noNullExtras r = true → deserialize sig fresh (serialize r) = some r) := by
  obtain ⟨hnames, hnodup, hex, htyped⟩ := hv
  have hdeclnodup : (r.decl.map Prod.fst).Nodup := by rw [hnames]; exact hnodup
  have hid2 : ∀ kv ∈ r.decl, kv.1 = "id" → kv.2 ≠ JVal.null := by
    intro kv hkv hke hnull
    have hlook : r.decl.lookup "id" = some kv.2 := by
      rw [← hke]
      exact lookup_of_mem_nodup _ _ _ hdeclnodup hkv
    unfold idOk at hid
    rw [hlook, hnull] at hid
    cases hid
  have hmain : deserialize sig fresh (serialize r) =
      some ⟨r.decl, r.extras.filter (fun kv => kv.2 != JVal.null)⟩ := by
    unfold deserialize
    rw [if_pos (ser_fieldOk sig r hnames hnodup hex htyped)]
    rw [decl_reconstruct fresh (serialize r) sig r.decl hnames
      (ser_lookup_decl sig r hnames hnodup hex) hid2]
    rw [extras_reconstruct sig r hnames hex]
  refine ⟨hmain, ?_, ?_⟩
  · unfold serialize
    rw [List.filter_append, List.filter_append]
    have hidem : ((r.extras.filter (fun kv => kv.2 != JVal.null)).filter
        (fun kv => kv.2 != JVal.null)) =
        r.extras.filter (fun kv => kv.2 != JVal.null) := by
      rw [List.filter_eq_self]
      intro kv hkv
      exact (List.mem_filter.mp hkv).2
    rw [hidem]
  · intro hnn
    rw [hmain]
    have : r.extras.filter (fun kv => kv.2 != JVal.null) = r.extras := by
      rw [List.filter_eq_self]
      intro kv hkv
      exact (List.all_eq_true.mp hnn) kv hkv
    rw [this]

/-- C6 witness: the Task record of the fixtures is validated with a
non-null id and no extras, and round-trips exactly. -/
theorem roundtrip_witness :
    (validatedRec taskSig taskRec ∧ idOk taskRec = true ∧
      noNullExtras taskRec = true) ∧
    deserialize taskSig "f" (serialize taskRec) = some taskRec :=
  ⟨⟨⟨rfl, by decide, rfl, rfl⟩, rfl, rfl⟩,
    (roundtrip taskSig "f" taskRec ⟨rfl, by decide, rfl, rfl⟩ rfl).2.2 rfl⟩

/-- C6 counterexample: the payload carrying the explicit-null unknown
field `note` validates to a record holding that extra, but
deserializing its serialization loses the extra (`exclude_none` drops
it and re-validation cannot restore an undeclared field), so the
round-trip is not the identity on every validated record. -/
theorem roundtrip_counterexample :
    deserialize taskSig "f"
        [("id", .str "r1"), ("title", .str "x"), ("done", .bool false),
          ("note", JVal.null)] =
      some ⟨[("id", .str "r1"), ("title", .str "x"), ("done", .bool false)],
        [("note", JVal.null)]⟩ ∧
    deserialize taskSig "f"
        (serialize ⟨[("id", .str "r1"), ("title", .str "x"),
          ("done", .bool false)], [("note", JVal.null)]⟩) =
      some ⟨[("id", .str "r1"), ("title", .str "x"), ("done", .bool false)],
        []⟩ ∧
    some (⟨[("id", .str "r1"), ("title", .str "x"), ("done", .bool false)],
        []⟩ : RecordVal) ≠
      some (⟨[("id", .str "r1"), ("title", .str "x"), ("done", .bool false)],
        [("note", JVal.null)]⟩ : RecordVal) :=
  ⟨rfl, rfl, by decide⟩

/-! ## Publication of non-mutating operations -/

theorem filter_limit_offset_id (l : JsonObj) (hl : l.lookup "limit" = none)
    (ho : l.lookup "offset" = none) :
    l.filter (fun kv => kv.1 != "limit" && kv.1 != "offset") = l := by
  rw [List.filter_eq_self]
  intro kv hkv
  have h1 : kv.1 ≠ "limit" := (lookup_eq_none_iff _ _).mp hl kv hkv
  have h2 : kv.1 ≠ "offset" := (lookup_eq_none_iff _ _).mp ho kv hkv
  simp [h1, h2]

/-- C10: a successful `read` and a successful `query` publish exactly one
event on the collection channel, carrying the event kind and the same
data the HTTP body returns — publication is not limited to mutations
(the filter map of the query is taken as given when it carries no
`limit`/`offset` keys). -/
theorem nonmutating_events_published (sig : Sig) (fresh col : String)
    (db : RecordDB) (i : String) (r : RecordVal) (filters : JsonObj)
    (hr : retrieveRaw sig fresh db i = .ok r)
    (hl : filters.lookup "limit" = none)
    (ho : filters.lookup "offset" = none) :
    routerPost sig fresh col db ⟨.read, some i, none⟩ =
      .ok (db, [⟨.read, .one r⟩], ⟨col, .one r, .read⟩) ∧
    routerPost sig fresh col db ⟨.query, none, some filters⟩ =
      .ok (db, [⟨.query, .many (findRecs sig fresh db filters 100 0)⟩],
        ⟨col, .many (findRecs sig fresh db filters 100 0), .query⟩) := by
  constructor
  · unfold routerPost routerBranch
    simp [hr]
  · have hbl : badIntArg filters "limit" = false := by
      unfold badIntArg
      rw [hl]
    have hbo : badIntArg filters "offset" = false := by
      unfold badIntArg
      rw [ho]
    have hargl : getIntArg filters "limit" 100 = 100 := by
      unfold getIntArg
      rw [hl]
    have hargo : getIntArg filters "offset" 0 = 0 := by
      unfold getIntArg
      rw [ho]
    unfold routerPost routerBranch
    simp [hbl, hbo, hargl, hargo, filter_limit_offset_id filters hl ho]

/-- C10 witness: on the Task fixture store, a read of `r1` and a query
filtering `done = true` both answer 200 and publish one event of their
kind with the returned data. -/
theorem nonmutating_events_published_witness :
    retrieveRaw taskSig "f" taskDB "r1" = .ok taskRec ∧
    (routerPost taskSig "f" "C" taskDB ⟨.read, some "r1", none⟩ =
      .ok (taskDB, [⟨.read, .one taskRec⟩], ⟨"C", .one taskRec, .read⟩) ∧
    routerPost taskSig "f" "C" taskDB
        ⟨.query, none, some [("done", .bool true)]⟩ =
      .ok (taskDB,
        [⟨.query, .many (findRecs taskSig "f" taskDB
          [("done", .bool true)] 100 0)⟩],
        ⟨"C", .many (findRecs taskSig "f" taskDB
          [("done", .bool true)] 100 0), .query⟩)) :=
  ⟨rfl, nonmutating_events_published taskSig "f" "C" taskDB "r1" taskRec
    [("done", .bool true)] rfl rfl rfl⟩

end Quipubase
